import Mathlib

/-!
# Verification of the pigeon-sts crawler (`src/index.js`)

A shallow embedding of the crawl-and-extract pipeline of `src/index.js`:
the cache-aware fetcher `readSite`, the tag normalizer `tagify`, the
pagination crawler `scrapeCategory`, the entry extractor / dataset merger
`scrapePage`, and a small state model of the `p-queue` scheduler used by
`run`.  JavaScript strings are modelled as Lean `String`, machine numbers
(millisecond timestamps, TTL durations) as `Int`, and fallible async code
as `Option`-returning functions.  External collaborators (the HTTP fetch,
the filesystem cache, the HTML parser and the WHATWG URL resolver) are
supplied as explicit parameters so that the control flow of `index.js`
itself is what the definitions pin down.
-/

/-! ## Character model for `tagify` (src/index.js line 77-79)

`tagify` is
`str.replace(/[^a-zA-Z_-]+/gmi, '.').toLowerCase()
    .replace(/\.+/gmi, '.').replace(/_+/gmi, '_').replace(/[-]+/gmi, '-')`
(the last regex is written `-+` in the source; `[-]+` here is the same
pattern, spelled so as not to open a nested comment).
We model it on `List Char`: a single left-to-right pass replacing each
maximal run of characters outside `[a-zA-Z_-]` by one `'.'`, then ASCII
lowercasing (the string at that point only contains ASCII letters, `'_'`,
`'-'` and `'.'`, on which JavaScript `toLowerCase` is exactly ASCII
lowercasing), then collapsing runs of `'.'`, `'_'`, `'-'` in that order. -/

/-- The character class `[a-zA-Z_-]` kept verbatim by the first `replace`
of `tagify`. -/
def isTagChar (c : Char) : Bool :=
  (97 ≤ c.toNat && c.toNat ≤ 122) || (65 ≤ c.toNat && c.toNat ≤ 90) ||
    (c.toNat == 95) || (c.toNat == 45)

/-- Characters that can occur in a `tagify` output: lowercase ASCII
letters, `'_'` (95), `'-'` (45) and `'.'` (46). -/
def isLowerDot (c : Char) : Bool :=
  (97 ≤ c.toNat && c.toNat ≤ 122) || (c.toNat == 95) || (c.toNat == 45) ||
    (c.toNat == 46)

/-- One pass of `str.replace(/[^a-zA-Z_-]+/gmi, '.')`: `prevBad` records
whether the previous character belonged to a (bad) run already replaced,
so each maximal bad run emits exactly one `'.'`. -/
def replaceBadAux : Bool → List Char → List Char
  | _, [] => []
  | prevBad, c :: rest =>
    if isTagChar c then c :: replaceBadAux false rest
    else if prevBad then replaceBadAux true rest
    else '.' :: replaceBadAux true rest

/-- ASCII lowercasing, the effect of `String.prototype.toLowerCase` on the
ASCII-only intermediate string of `tagify`. -/
def lowerChar (c : Char) : Char :=
  if 65 ≤ c.toNat ∧ c.toNat ≤ 90 then Char.ofNat (c.toNat + 32) else c

/-- Model of `str.replace(/c+/g, c)`: collapse each maximal run of the character
`c` to a single occurrence. -/
def collapseRuns (c : Char) : List Char → List Char
  | [] => []
  | [d] => [d]
  | d :: e :: rest =>
    if d = c ∧ e = c then collapseRuns c (e :: rest)
    else d :: collapseRuns c (e :: rest)

/-- The body of `tagify` on a character list: replace bad runs by `'.'`, lowercase,
then collapse `'.'`, `'_'`, `'-'` runs (in the order of the source). -/
def tagifyL (l : List Char) : List Char :=
  collapseRuns '-' (collapseRuns '_' (collapseRuns '.'
    ((replaceBadAux false l).map lowerChar)))

/-- The tag normalizer `tagify` from src/index.js lines 77-79. -/
def tagify (s : String) : String :=
  String.mk (tagifyL s.data)

/-- No two adjacent occurrences of the character `c` in `l` (the result
regions of the collapsing regexes of `tagify`). -/
def noAdjC (c : Char) (l : List Char) : Prop :=
  List.Chain' (fun a b => ¬(a = c ∧ b = c)) l

/-! ## First-seen deduplication

`[...new Set(list)]` (src/index.js line 122) and the accumulator guard
`if (!entryURLs.includes(resultURL)) entryURLs.push(resultURL)`
(lines 165-167) both keep the first occurrence of each string and preserve
insertion order. -/

/-- First-occurrence deduplication with an explicit `seen` accumulator. -/
def dedupFirstAux (seen : List String) : List String → List String
  | [] => []
  | a :: rest =>
    if a ∈ seen then dedupFirstAux seen rest
    else a :: dedupFirstAux (a :: seen) rest

/-- Model of `[...new Set(l)]`: JavaScript `Set` iteration order is insertion
order, so spreading a `Set` built from `l` keeps the first occurrence of
each element, in order. -/
def dedupFirst (l : List String) : List String := dedupFirstAux [] l

/-- The guard `if (!entryURLs.includes(resultURL)) entryURLs.push(resultURL)`
(src/index.js lines 165-167). -/
def pushNew (acc : List String) (u : String) : List String :=
  if u ∈ acc then acc else acc ++ [u]

/-- The result-link loop of `scrapeCategory` (src/index.js lines 163-168):
every href is resolved against the listing page URL and appended to the
accumulator only when not already present.  `rel` is the WHATWG URL
resolver `new URL(left, right).toString()`, an external collaborator
passed as a parameter. -/
def addResultURLs (rel : String → String → String) (pageURL : String)
    (hrefs : List String) (acc : List String) : List String :=
  (hrefs.map (fun h => rel h pageURL)).foldl pushNew acc

/-! ## The `p-queue` scheduler model (claim C1)

`run` (src/index.js line 156) creates `new PQueue({ concurrency })` and
between the two crawl phases awaits `queue.onEmpty()` (line 189).  In
`p-queue`, `.size` counts queued tasks that have not started and
`.pending` counts tasks currently running; `onEmpty()` resolves as soon as
`.size === 0`, while only `onIdle()` additionally waits for
`.pending === 0`.  We model the queue by those two counters. -/

structure QueueState where
  size : Nat
  pending : Nat
deriving DecidableEq

/-- A queued task starts running when a concurrency slot is free. -/
def startTask (concurrency : Nat) (s : QueueState) : QueueState :=
  if 0 < s.size ∧ s.pending < concurrency then
    { size := s.size - 1, pending := s.pending + 1 }
  else s

/-- A running task finishes; `spawn` is the number of tasks it enqueued
while running via `queue.add` (the recursive next-page submission of
`scrapeCategory`, src/index.js lines 171-175). -/
def finishTask (spawn : Nat) (s : QueueState) : QueueState :=
  if 0 < s.pending then { size := s.size + spawn, pending := s.pending - 1 }
  else s

/-- The condition under which the awaited `queue.onEmpty()` promise of
src/index.js line 189 resolves: no queued tasks, regardless of running
ones. -/
def onEmptyResolves (s : QueueState) : Bool := s.size == 0

/-- A drained scheduler in the sense of the spec's barrier: no pending
(queued) and no in-flight (running) tasks. -/
def drained (s : QueueState) : Bool := s.size == 0 && s.pending == 0

/-! ## The cache-aware fetcher `readSite` (src/index.js lines 52-71) -/

/-- The selector results of one parsed HTML page, as extracted by
`pigeonmark` in `scrapePage` and `scrapeCategory`: the canonical link
href, title text, kind text, meta description, `video` element `src`
attributes, variant tab hrefs, result-title link hrefs and the next-page
link href. -/
structure Page where
  canonicalHref : String
  title : String
  kind : String
  body : String
  videoSrcs : List String
  variantHrefs : List String
  resultLinkHrefs : List String
  nextPageHref : Option String
deriving DecidableEq

/-- What `readSite` produces for its caller: a parsed document, the
implicit `undefined` returned on a non-ok response, or a propagated
exception from the awaited cache write (`fs.ensureDir` or
`fs.writeFile`). -/
inductive ReadResult where
  | doc (p : Page)
  | absent
  | writeError
deriving DecidableEq

/-- The `result` plus observability flags: whether `fetch` was called and
whether the body was written to the cache file. -/
structure ReadOutcome where
  result : ReadResult
  networkUsed : Bool
  cacheWritten : Bool

/-- The external world of `readSite`: argv cache settings, the clock, the
cache directory (modification times and contents, keyed by URL since the
cache filename is the percent-encoded URL), the HTTP fetch, whether the
cache write succeeds, and the `pigeonmark-html` parser `decode`. -/
structure SiteEnv where
  cacheFolder : Option String
  cacheDurationMs : Int
  nowMs : Int
  cacheFileMtime : String → Option Int
  cacheContent : String → String
  fetchOk : String → Bool
  fetchText : String → String
  writeOk : Bool
  decode : String → Page

/-- The cache test of src/index.js lines 53-59: a cache folder is
configured, the cache file exists, and
`stat(file).mtimeMs > Date.now() - parseDuration(argv.cacheDuration)`. -/
def cacheHit (env : SiteEnv) (url : String) : Bool :=
  match env.cacheFolder, env.cacheFileMtime url with
  | some _, some mtime => decide (env.nowMs - env.cacheDurationMs < mtime)
  | _, _ => false

/-- The fetcher `readSite` (src/index.js lines 52-71).  On a cache hit the cached
content is decoded with no network call; otherwise `fetch` runs: on a
non-ok response the function returns `undefined` (`absent`); on an ok
response with a cache folder configured the body is written to the cache
file with `await` and no catch, so a write failure propagates
(`writeError`) instead of returning the document. -/
def readSite (env : SiteEnv) (url : String) : ReadOutcome :=
  if cacheHit env url then
    { result := ReadResult.doc (env.decode (env.cacheContent url)),
      networkUsed := false, cacheWritten := false }
  else if env.fetchOk url then
    match env.cacheFolder with
    | some _ =>
      if env.writeOk then
        { result := ReadResult.doc (env.decode (env.fetchText url)),
          networkUsed := true, cacheWritten := true }
      else
        { result := ReadResult.writeError, networkUsed := true,
          cacheWritten := false }
    | none =>
      { result := ReadResult.doc (env.decode (env.fetchText url)),
        networkUsed := true, cacheWritten := false }
  else
    { result := ReadResult.absent, networkUsed := true, cacheWritten := false }

/-- Whether a `ReadResult` carries a parsed document. -/
def returnsDoc : ReadResult → Bool
  | ReadResult.doc _ => true
  | _ => false

/-! ## The pagination crawler `scrapeCategory` (src/index.js lines 158-176) -/

/-- One `scrapeCategory` task: fetch the listing page, append each
resolved result link not already present, and return the resolved
next-page URL to enqueue (if any).  `none` models the task rejecting (a
propagated cache-write exception).  When `readSite` returns `undefined`
the `pigeonmark-select` selectors find no matches in it, so nothing is
extracted and no next-page task is enqueued — modelled from the spec
(`FetchUnavailable`), since the selector library is an external
collaborator. -/
def scrapeCategory (rel : String → String → String) (env : SiteEnv)
    (pageURL : String) (entryURLs : List String) :
    Option (List String × Option String) :=
  match (readSite env pageURL).result with
  | ReadResult.writeError => none
  | ReadResult.absent => some (entryURLs, none)
  | ReadResult.doc page =>
    some (addResultURLs rel pageURL page.resultLinkHrefs entryURLs,
      page.nextPageHref.map (fun h => rel h pageURL))

/-! ## The entry extractor and dataset merger `scrapePage`
(src/index.js lines 86-134) -/

/-- One element of the `media` array: `{ method: 'fetch', url }`. -/
structure MediaEntry where
  method : String
  url : String
deriving DecidableEq

/-- The fixed `provider` descriptor (src/index.js lines 125-129). -/
structure Provider where
  id : String
  link : String
  verb : String
deriving DecidableEq

/-- One record of the output dataset (src/index.js lines 114-130). -/
structure EntryRecord where
  title : String
  link : String
  nav : List (String × String)
  tags : List String
  body : String
  media : List MediaEntry
  provider : Provider
deriving DecidableEq

/-- The in-memory dataset `searchData`, a plain object keyed by entry
id. -/
def SearchData : Type := String → Option EntryRecord

/-- Model of `unslice` (src/index.js lines 82-84) applied to a value that may be
`undefined`: `(' ' + x).substring(1)`.  For a string it is the identity
(a fresh copy, to work around the V8 slice leak); for `undefined`,
JavaScript string coercion yields `' ' + undefined === ' undefined'`, so
the result is the literal string `"undefined"`. -/
def unsliceJS : Option String → String
  | some s => s
  | none => "undefined"

/-- JavaScript `url.split('/')`: split at every `'/'`, keeping empty
segments. -/
def splitSlashAux : List Char → List Char → List String
  | [], cur => [String.mk cur.reverse]
  | c :: rest, cur =>
    if c = '/' then String.mk cur.reverse :: splitSlashAux rest []
    else splitSlashAux rest (c :: cur)

/-- JavaScript `url.split('/')`. -/
def splitSlash (s : String) : List String := splitSlashAux s.data []

/-- The test `x.match(/^[0-9]+$/)` on one path segment: non-empty and all ASCII
digits. -/
def numericSeg (s : String) : Bool := !s.isEmpty && s.data.all Char.isDigit

/-- The id extraction of src/index.js line 89:
`unslice(entryURL.split('/').find(x => x.match(/^[0-9]+$/)))`.
When no segment matches, `find` yields `undefined` and `unslice` turns it
into the string `"undefined"`. -/
def extractId (entryURL : String) : String :=
  unsliceJS ((splitSlash entryURL).find? numericSeg)

/-- Model of `selectAll(page, 'video').map(x => ({ method: 'fetch', url:
unslice(rel(attr(x, 'src'), entryURL)) }))` — every src is resolved
against `base`. -/
def mediaOf (rel : String → String → String) (base : String)
    (srcs : List String) : List MediaEntry :=
  srcs.map (fun s => { method := "fetch", url := rel s base })

/-- The variant loop of src/index.js lines 98-109: each variant href is
resolved against `entryURL` and fetched; a fetch that does not produce a
document makes the whole `scrapePage` task reject (the selector access on
`undefined` throws). -/
def fetchVariants (rel : String → String → String) (env : SiteEnv)
    (entryURL : String) (hrefs : List String) : Option (List Page) :=
  hrefs.mapM (fun h =>
    match (readSite env (rel h entryURL)).result with
    | ReadResult.doc vp => some vp
    | _ => none)

/-- The entry extractor `scrapePage` (src/index.js lines 86-134): fetch the entry page,
extract id/canonical/title/kind/body/media, fetch each variant page and
append its media (resolved against `entryURL`), then — only when the
combined media is non-empty — store a record under the id, with the tag
set `[...new Set([...['spread-the-sign', kind, category].map(tagify),
...existing.tags])]` merging in the prior record's tags.  `argvUrl` is
`argv.url` and `categories` the label→URL map built by `run`. -/
def scrapePage (rel : String → String → String) (env : SiteEnv)
    (argvUrl : String) (categories : String → String) (category : String)
    (searchData : SearchData) (entryURL : String) : Option SearchData :=
  match (readSite env entryURL).result with
  | ReadResult.doc page =>
    match fetchVariants rel env entryURL page.variantHrefs with
    | none => none
    | some variantPages =>
      let id := extractId entryURL
      let canonicalLink := rel page.canonicalHref entryURL
      let media := mediaOf rel entryURL page.videoSrcs ++
        variantPages.flatMap (fun vp => mediaOf rel entryURL vp.videoSrcs)
      if media.isEmpty then some searchData
      else
        let existingTags := match searchData id with
          | some r => r.tags
          | none => []
        some (fun k =>
          if k = id then
            some {
              title := page.title
              link := canonicalLink
              nav := [("SpreadTheSign", argvUrl),
                (category, categories category),
                (page.title, canonicalLink)]
              tags := dedupFirst
                ((["spread-the-sign", page.kind, category].map tagify) ++
                  existingTags)
              body := page.body
              media := media
              provider := ⟨"spread-the-sign", argvUrl, "documented"⟩ }
          else searchData k)
  | _ => none

/-- Phase 2 of `run` (src/index.js lines 193-200): one `scrapePage` task
per discovered entry URL, all merging into the same `searchData`.  A task
that rejects leaves the dataset untouched and does not abort its siblings
(the scheduler isolates failures). -/
def scrapePhase (rel : String → String → String) (env : SiteEnv)
    (argvUrl : String) (categories : String → String)
    (tasks : List (String × String)) (d : SearchData) : SearchData :=
  tasks.foldl (fun d t =>
    match scrapePage rel env argvUrl categories t.2 d t.1 with
    | some d2 => d2
    | none => d) d

/-! ## Concrete fixtures used by witness and counterexample theorems -/

/-- A parsed page with no extractable content. -/
def emptyPage : Page :=
  { canonicalHref := "", title := "", kind := "", body := "",
    videoSrcs := [], variantHrefs := [], resultLinkHrefs := [],
    nextPageHref := none }

/-- A concrete URL resolver for witnesses; it records the base it was
given, so which base URL a resolution used is observable in the output. -/
def relW : String → String → String := fun s b => b ++ "|" ++ s

/-- Environment for C2: cache configured, no cached file, fetch succeeds,
cache write fails. -/
def envC2 : SiteEnv :=
  { cacheFolder := some "cache", cacheDurationMs := 604800000,
    nowMs := 1000000, cacheFileMtime := fun _ => none,
    cacheContent := fun _ => "", fetchOk := fun _ => true,
    fetchText := fun _ => "page html", writeOk := false,
    decode := fun _ => emptyPage }

/-- Environment for C7: cached file whose modification time is exactly
`now - ttl` (900 = 1000 - 100). -/
def envC7 : SiteEnv :=
  { cacheFolder := some "cache", cacheDurationMs := 100, nowMs := 1000,
    cacheFileMtime := fun _ => some 900,
    cacheContent := fun _ => "cached html", fetchOk := fun _ => true,
    fetchText := fun _ => "fresh html", writeOk := true,
    decode := fun _ => emptyPage }

/-- Environment for C8: no cache, every fetch returns a non-ok status. -/
def envC8 : SiteEnv :=
  { cacheFolder := none, cacheDurationMs := 0, nowMs := 0,
    cacheFileMtime := fun _ => none, cacheContent := fun _ => "",
    fetchOk := fun _ => false, fetchText := fun _ => "", writeOk := true,
    decode := fun _ => emptyPage }

/-- Entry page for the C4/C5 witnesses. -/
def pageC4 : Page :=
  { canonicalHref := "/sign/42", title := "Cat", kind := "Noun",
    body := "A cat sign", videoSrcs := ["/v/42.mp4"], variantHrefs := [],
    resultLinkHrefs := [], nextPageHref := none }

/-- Environment for C4/C5: no cache, every fetch returns the entry page. -/
def envC4 : SiteEnv :=
  { cacheFolder := none, cacheDurationMs := 0, nowMs := 0,
    cacheFileMtime := fun _ => none, cacheContent := fun _ => "",
    fetchOk := fun _ => true, fetchText := fun u => u, writeOk := true,
    decode := fun _ => pageC4 }

/-- The prior record stored under id "42" before the C4 witness merge. -/
def recC4 : EntryRecord :=
  { title := "Old", link := "l", nav := [], tags := ["x"], body := "",
    media := [{ method := "fetch", url := "m" }],
    provider := ⟨"spread-the-sign", "u", "documented"⟩ }

/-- Dataset holding `recC4` under id "42". -/
def d0C4 : SearchData := fun k => if k = "42" then some recC4 else none

/-- Entry URL whose path contains the numeric segment "42". -/
def urlC4 : String := "https://sts.example/en.au/word/42/cat"

/-- The dataset after the C4 witness merge. -/
def outC4 : SearchData :=
  (scrapePage relW envC4 "https://sts.example" (fun _ => "catURL") "animals"
    d0C4 urlC4).getD d0C4

/-- The record stored under "42" after the C4 witness merge. -/
def recC4' : EntryRecord := (outC4 "42").getD recC4

/-- The dataset produced by the C5 witness extraction phase. -/
def dC5 : SearchData :=
  scrapePhase relW envC4 "https://sts.example" (fun _ => "catURL")
    [(urlC4, "animals")] (fun _ => none)

/-- The record stored under "42" by the C5 witness phase. -/
def recC5 : EntryRecord := (dC5 "42").getD recC4

/-- Primary entry page for the C9 witness: one video and one variant
tab. -/
def pageC9main : Page :=
  { canonicalHref := "/sign/7", title := "Dog", kind := "Noun",
    body := "b", videoSrcs := ["a.mp4"], variantHrefs := ["v1"],
    resultLinkHrefs := [], nextPageHref := none }

/-- Variant page for the C9 witness, with its own (relative) video src. -/
def pageC9var : Page :=
  { canonicalHref := "", title := "", kind := "", body := "",
    videoSrcs := ["b.mp4"], variantHrefs := [], resultLinkHrefs := [],
    nextPageHref := none }

/-- Entry URL for the C9 witness. -/
def urlC9 : String := "https://sts.example/en.au/word/7/dog"

/-- Environment for C9: the entry URL resolves to the primary page, every
other URL (in particular the resolved variant URL) to the variant page. -/
def envC9 : SiteEnv :=
  { cacheFolder := none, cacheDurationMs := 0, nowMs := 0,
    cacheFileMtime := fun _ => none, cacheContent := fun _ => "",
    fetchOk := fun _ => true, fetchText := fun u => u, writeOk := true,
    decode := fun u => if u = urlC9 then pageC9main else pageC9var }

/-- The dataset written by the C9 witness extraction. -/
def outC9 : SearchData :=
  (scrapePage relW envC9 "https://sts.example" (fun _ => "catURL") "animals"
    (fun _ => none) urlC9).getD (fun _ => none)

/-- The record stored under "7" by the C9 witness extraction. -/
def recC9 : EntryRecord := (outC9 "7").getD recC4

/-- First entry page for the C10 witness. -/
def pageC10a : Page :=
  { canonicalHref := "/c1", title := "T1", kind := "Noun", body := "b1",
    videoSrcs := ["m1.mp4"], variantHrefs := [], resultLinkHrefs := [],
    nextPageHref := none }

/-- Second entry page for the C10 witness. -/
def pageC10b : Page :=
  { canonicalHref := "/c2", title := "T2", kind := "Noun", body := "b2",
    videoSrcs := ["m2.mp4"], variantHrefs := [], resultLinkHrefs := [],
    nextPageHref := none }

/-- First C10 entry URL: no path segment is purely numeric. -/
def urlC10a : String := "https://sts.example/en.au/word/cat"

/-- Second C10 entry URL: no path segment is purely numeric either. -/
def urlC10b : String := "https://sts.example/en.au/word/dog"

/-- Environment for C10. -/
def envC10 : SiteEnv :=
  { cacheFolder := none, cacheDurationMs := 0, nowMs := 0,
    cacheFileMtime := fun _ => none, cacheContent := fun _ => "",
    fetchOk := fun _ => true, fetchText := fun u => u, writeOk := true,
    decode := fun u => if u = urlC10a then pageC10a else pageC10b }

/-! ## Helper lemmas about characters -/

theorem char_toNat_inj {a b : Char} (h : a.toNat = b.toNat) : a = b := by
  have ha := Char.ofNat_toNat a
  have hb := Char.ofNat_toNat b
  rw [← ha, ← hb, h]

theorem toNat_ofNat_valid (n : Nat) (h : n < 55296) : (Char.ofNat n).toNat = n := by
  have hv : n.isValidChar := Or.inl h
  simp [Char.ofNat, hv, Char.ofNatAux, Char.toNat, UInt32.toNat]

theorem lowerChar_toNat (c : Char) :
    (lowerChar c).toNat =
      if 65 ≤ c.toNat ∧ c.toNat ≤ 90 then c.toNat + 32 else c.toNat := by
  unfold lowerChar
  split
  case isTrue h => rw [toNat_ofNat_valid _ (by omega)]
  case isFalse h => rfl

theorem isLowerDot_lowerChar {c : Char} (h : isTagChar c = true ∨ c = '.') :
    isLowerDot (lowerChar c) = true := by
  have hnat : (lowerChar c).toNat =
      if 65 ≤ c.toNat ∧ c.toNat ≤ 90 then c.toNat + 32 else c.toNat :=
    lowerChar_toNat c
  simp only [isLowerDot, Bool.or_eq_true, Bool.and_eq_true, decide_eq_true_eq,
    beq_iff_eq, hnat]
  rcases h with h | rfl
  · simp only [isTagChar, Bool.or_eq_true, Bool.and_eq_true, decide_eq_true_eq,
      beq_iff_eq] at h
    split <;> omega
  · decide

theorem lowerChar_fix {c : Char} (h : isLowerDot c = true) : lowerChar c = c := by
  unfold lowerChar
  split
  case isTrue h2 =>
    exfalso
    simp only [isLowerDot, Bool.or_eq_true, Bool.and_eq_true, decide_eq_true_eq,
      beq_iff_eq] at h
    omega
  case isFalse h2 => rfl

theorem isTagChar_ne_dot {c : Char} (h : isTagChar c = true) : c ≠ '.' := by
  intro hc
  subst hc
  simp only [isTagChar] at h
  exact absurd h (by decide)

/-! ## Lemmas about `collapseRuns` -/

theorem collapseRuns_head? (c : Char) :
    ∀ l : List Char, (collapseRuns c l).head? = l.head?
  | [] => rfl
  | [d] => rfl
  | d :: e :: rest => by
    unfold collapseRuns
    split
    case isTrue h =>
      rw [collapseRuns_head? c (e :: rest)]
      simp [h.1, h.2]
    case isFalse h => rfl

theorem collapseRuns_noAdj (c : Char) :
    ∀ l : List Char, noAdjC c (collapseRuns c l)
  | [] => List.chain'_nil
  | [d] => List.chain'_singleton d
  | d :: e :: rest => by
    unfold collapseRuns
    split
    case isTrue h => exact collapseRuns_noAdj c (e :: rest)
    case isFalse h =>
      rw [noAdjC, List.chain'_cons']
      refine ⟨?_, collapseRuns_noAdj c (e :: rest)⟩
      intro y hy
      rw [collapseRuns_head? c (e :: rest)] at hy
      simp only [List.head?_cons, Option.mem_def, Option.some.injEq] at hy
      subst hy
      exact h

theorem collapseRuns_preserves_chain (c : Char) {R : Char → Char → Prop} :
    ∀ l : List Char, List.Chain' R l → List.Chain' R (collapseRuns c l)
  | [], _ => List.chain'_nil
  | [d], _ => List.chain'_singleton d
  | d :: e :: rest, h => by
    rw [List.chain'_cons] at h
    unfold collapseRuns
    split
    case isTrue hc => exact collapseRuns_preserves_chain c (e :: rest) h.2
    case isFalse hc =>
      rw [List.chain'_cons']
      refine ⟨?_, collapseRuns_preserves_chain c (e :: rest) h.2⟩
      intro y hy
      rw [collapseRuns_head? c (e :: rest)] at hy
      simp only [List.head?_cons, Option.mem_def, Option.some.injEq] at hy
      subst hy
      exact h.1

theorem collapseRuns_mem (c : Char) :
    ∀ l : List Char, ∀ x ∈ collapseRuns c l, x ∈ l
  | [], x, hx => hx
  | [d], x, hx => hx
  | d :: e :: rest, x, hx => by
    rw [collapseRuns] at hx
    split at hx
    case isTrue h => exact List.mem_cons_of_mem d (collapseRuns_mem c (e :: rest) x hx)
    case isFalse h =>
      rcases List.mem_cons.mp hx with rfl | hx'
      · exact List.mem_cons_self x (e :: rest)
      · exact List.mem_cons_of_mem d (collapseRuns_mem c (e :: rest) x hx')

theorem collapseRuns_fix (c : Char) :
    ∀ l : List Char, noAdjC c l → collapseRuns c l = l
  | [], _ => rfl
  | [d], _ => rfl
  | d :: e :: rest, h => by
    rw [noAdjC, List.chain'_cons] at h
    rw [collapseRuns, if_neg h.1, collapseRuns_fix c (e :: rest) h.2]

/-! ## Lemmas about `replaceBadAux` -/

theorem replaceBadAux_mem :
    ∀ (b : Bool) (l : List Char), ∀ x ∈ replaceBadAux b l,
      isTagChar x = true ∨ x = '.'
  | _, [], x, hx => absurd hx (List.not_mem_nil x)
  | b, c :: rest, x, hx => by
    rw [replaceBadAux] at hx
    split at hx
    case isTrue h =>
      rcases List.mem_cons.mp hx with rfl | hx'
      · exact Or.inl h
      · exact replaceBadAux_mem false rest x hx'
    case isFalse h =>
      split at hx
      case isTrue hb => exact replaceBadAux_mem true rest x hx
      case isFalse hb =>
        rcases List.mem_cons.mp hx with rfl | hx'
        · exact Or.inr rfl
        · exact replaceBadAux_mem true rest x hx'

theorem replaceBadAux_fix :
    ∀ l : List Char, (∀ x ∈ l, isTagChar x = true ∨ x = '.') → noAdjC '.' l →
      replaceBadAux false l = l ∧
        ((∀ d, l.head? = some d → d ≠ '.') → replaceBadAux true l = l)
  | [], _, _ => ⟨rfl, fun _ => rfl⟩
  | c :: rest, hcls, hadj => by
    have hrest : ∀ x ∈ rest, isTagChar x = true ∨ x = '.' :=
      fun x hx => hcls x (List.mem_cons_of_mem c hx)
    have hadjrest : noAdjC '.' rest := List.Chain'.tail hadj
    have ih := replaceBadAux_fix rest hrest hadjrest
    rcases hcls c (List.mem_cons_self c rest) with hg | rfl
    · constructor
      · rw [replaceBadAux, if_pos hg, ih.1]
      · intro _
        rw [replaceBadAux, if_pos hg, ih.1]
    · constructor
      · have hg : ¬ isTagChar '.' = true := by decide
        rw [replaceBadAux, if_neg hg, if_neg (by simp)]
        have hhd : ∀ d, rest.head? = some d → d ≠ '.' := by
          intro d hd
          match rest, hd with
          | e :: rest', hd =>
            simp only [List.head?_cons, Option.some.injEq] at hd
            subst hd
            rw [noAdjC, List.chain'_cons] at hadj
            intro hde
            exact hadj.1 ⟨rfl, hde⟩
        rw [ih.2 hhd]
      · intro hh
        exact absurd rfl (hh '.' rfl)

/-! ## The `tagify` fixpoint and idempotence (claim C3) -/

theorem map_lowerChar_fix :
    ∀ l : List Char, (∀ x ∈ l, isLowerDot x = true) → l.map lowerChar = l
  | [], _ => rfl
  | c :: rest, h => by
    rw [List.map_cons, lowerChar_fix (h c (List.mem_cons_self c rest)),
      map_lowerChar_fix rest (fun x hx => h x (List.mem_cons_of_mem c hx))]

theorem tagifyL_mem (l : List Char) :
    ∀ x ∈ tagifyL l, isLowerDot x = true := by
  intro x hx
  rw [tagifyL] at hx
  have hx1 := collapseRuns_mem '-' _ x hx
  have hx2 := collapseRuns_mem '_' _ x hx1
  have hx3 := collapseRuns_mem '.' _ x hx2
  rcases List.mem_map.mp hx3 with ⟨y, hy, rfl⟩
  exact isLowerDot_lowerChar (replaceBadAux_mem false l y hy)

theorem tagifyL_conds (l : List Char) :
    noAdjC '.' (tagifyL l) ∧ noAdjC '_' (tagifyL l) ∧ noAdjC '-' (tagifyL l) := by
  rw [tagifyL]
  refine ⟨?_, ?_, ?_⟩
  · exact collapseRuns_preserves_chain '-' _ (collapseRuns_preserves_chain '_' _ (collapseRuns_noAdj '.' _))
  · exact collapseRuns_preserves_chain '-' _ (collapseRuns_noAdj '_' _)
  · exact collapseRuns_noAdj '-' _

theorem tagifyL_fix (l : List Char) (h1 : ∀ x ∈ l, isLowerDot x = true)
    (h2 : noAdjC '.' l) (h3 : noAdjC '_' l) (h4 : noAdjC '-' l) :
    tagifyL l = l := by
  have hclass : ∀ x ∈ l, isTagChar x = true ∨ x = '.' := by
    intro x hx
    have hld := h1 x hx
    simp only [isLowerDot, Bool.or_eq_true, Bool.and_eq_true, decide_eq_true_eq,
      beq_iff_eq] at hld
    rcases hld with ((h | h) | h) | h
    · exact Or.inl (by simp only [isTagChar, Bool.or_eq_true, Bool.and_eq_true,
        decide_eq_true_eq, beq_iff_eq]; omega)
    · exact Or.inl (by simp only [isTagChar, Bool.or_eq_true, Bool.and_eq_true,
        decide_eq_true_eq, beq_iff_eq]; omega)
    · exact Or.inl (by simp only [isTagChar, Bool.or_eq_true, Bool.and_eq_true,
        decide_eq_true_eq, beq_iff_eq]; omega)
    · have h' : x.toNat = Char.toNat '.' := by rw [h]; decide
      exact Or.inr (char_toNat_inj h')
  rw [tagifyL, (replaceBadAux_fix l hclass h2).1, map_lowerChar_fix l h1,
    collapseRuns_fix '.' l h2, collapseRuns_fix '_' l h3, collapseRuns_fix '-' l h4]

/-- C3: tag normalization is idempotent: for every string `s`,
`tagify (tagify s) = tagify s`, where `tagify` strips every run of
characters outside `[A-Za-z_-]` to a single `'.'`, lowercases, and
collapses repeated `'.'`, `'_'`, `'-'` runs to one each
(src/index.js lines 77-79). -/
theorem c3_tagify_idempotent (s : String) : tagify (tagify s) = tagify s := by
  show String.mk (tagifyL (String.mk (tagifyL s.data)).data) = String.mk (tagifyL s.data)
  have hdata : (String.mk (tagifyL s.data)).data = tagifyL s.data := rfl
  rw [hdata]
  have hconds := tagifyL_conds s.data
  rw [tagifyL_fix (tagifyL s.data) (tagifyL_mem s.data) hconds.1 hconds.2.1 hconds.2.2]

/-! ## Fetcher lemmas and claims C1, C2, C7, C8 -/

theorem cacheHit_iff {env : SiteEnv} {url f : String} {mtime : Int}
    (hc : env.cacheFolder = some f) (hf : env.cacheFileMtime url = some mtime) :
    cacheHit env url = true ↔ env.nowMs - env.cacheDurationMs < mtime := by
  unfold cacheHit
  rw [hc, hf]
  simp

theorem readSite_hit {env : SiteEnv} {url : String}
    (h : cacheHit env url = true) :
    readSite env url =
      { result := ReadResult.doc (env.decode (env.cacheContent url)),
        networkUsed := false, cacheWritten := false } := by
  unfold readSite
  rw [h]
  rfl

theorem readSite_networkUsed_of_no_hit {env : SiteEnv} {url : String}
    (h : cacheHit env url = false) : (readSite env url).networkUsed = true := by
  unfold readSite
  rw [h]
  by_cases hf : env.fetchOk url <;> cases hcf : env.cacheFolder <;>
    by_cases hw : env.writeOk <;> simp [hf, hcf, hw]

/-- C1 (exhibit of the code bug): `run` awaits `queue.onEmpty()` between
the pagination phase and the extraction phase (src/index.js line 189).
With one pagination task enqueued (a single category) and the default
concurrency 10, the task starts at once, leaving `size = 0` while it is
in flight; `onEmpty()` already resolves in that state even though the
scheduler is not drained, and the running task then enqueues a next-page
task that the resolved barrier never waited for.  The claimed barrier
(resolving only with no pending and no in-flight tasks) is `onIdle()`,
not the `onEmpty()` the code awaits. -/
theorem c1_onEmpty_resolves_while_in_flight :
    onEmptyResolves (startTask 10 ⟨1, 0⟩) = true ∧
    drained (startTask 10 ⟨1, 0⟩) = false ∧
    (finishTask 1 (startTask 10 ⟨1, 0⟩)).size = 1 ∧
    drained (finishTask 1 (startTask 10 ⟨1, 0⟩)) = false := by decide

/-- C2 (amended): in `readSite` the cache write after a successful fetch
is awaited with no handler (src/index.js lines 64-67), so a failing write
aborts the fetch: the error propagates and the parsed document is not
returned. -/
theorem c2_write_failure_aborts (env : SiteEnv) (url f : String)
    (hmiss : cacheHit env url = false) (hok : env.fetchOk url = true)
    (hcf : env.cacheFolder = some f) (hw : env.writeOk = false) :
    (readSite env url).result = ReadResult.writeError ∧
    returnsDoc (readSite env url).result = false := by
  have hrw : readSite env url =
      { result := ReadResult.writeError, networkUsed := true,
        cacheWritten := false } := by
    unfold readSite
    rw [hmiss, hok, hcf, hw]
    simp
  rw [hrw]
  exact ⟨rfl, rfl⟩

/-- C2 witness: concrete run of the amended statement. -/
theorem c2_write_failure_aborts_witness :
    (readSite envC2 "u").result = ReadResult.writeError :=
  (c2_write_failure_aborts envC2 "u" "cache" rfl rfl rfl rfl).1

/-- C2 counterexample: a concrete environment in which the fetch
succeeds, a cache folder is configured and the cache write fails —
contrary to the claim, `readSite` does not return the parsed document
(the write failure aborts the fetch). -/
theorem c2_cache_write_not_fire_and_forget :
    envC2.cacheFolder = some "cache" ∧ envC2.fetchOk "u" = true ∧
    envC2.writeOk = false ∧
    returnsDoc (readSite envC2 "u").result = false :=
  ⟨rfl, rfl, rfl, rfl⟩

/-- C7: with a cache folder configured and a cache file present, the
cached document is used with no network call iff
`mtimeMs > nowMs - ttlMs` (strictly); a file at exactly `now - ttl` is
stale and triggers a network fetch, one millisecond newer is fresh. -/
theorem c7_cache_freshness_boundary (env : SiteEnv) (url f : String)
    (mtime : Int) (hc : env.cacheFolder = some f)
    (hf : env.cacheFileMtime url = some mtime) :
    ((readSite env url).networkUsed = false ↔
      env.nowMs - env.cacheDurationMs < mtime) ∧
    (mtime = env.nowMs - env.cacheDurationMs →
      (readSite env url).networkUsed = true) ∧
    (mtime = env.nowMs - env.cacheDurationMs + 1 →
      (readSite env url).networkUsed = false ∧
      (readSite env url).result =
        ReadResult.doc (env.decode (env.cacheContent url))) := by
  have hiff := cacheHit_iff hc hf
  refine ⟨⟨?_, ?_⟩, ?_, ?_⟩
  · intro hnet
    by_contra hlt
    have hch : cacheHit env url = false := by
      cases hcb : cacheHit env url
      · rfl
      · exact absurd (hiff.mp hcb) hlt
    rw [readSite_networkUsed_of_no_hit hch] at hnet
    exact Bool.noConfusion hnet
  · intro hlt
    rw [readSite_hit (hiff.mpr hlt)]
  · intro heq
    apply readSite_networkUsed_of_no_hit
    cases hcb : cacheHit env url
    · rfl
    · have := hiff.mp hcb
      omega
  · intro heq
    have hch := hiff.mpr (by omega)
    rw [readSite_hit hch]
    exact ⟨rfl, rfl⟩

/-- C7 witness: in `envC7` the cached file's modification time is exactly
`now - ttl`, so the fetch goes to the network. -/
theorem c7_cache_freshness_boundary_witness :
    (readSite envC7 "u").networkUsed = true :=
  (c7_cache_freshness_boundary envC7 "u" "cache" 900 rfl rfl).2.1 (by decide)

/-- C8: a non-ok HTTP status makes `readSite` return absent (the
implicit `undefined`) rather than throw, and `scrapeCategory` then
extracts no entry URLs from the page and enqueues no next-page task,
without raising an error. -/
theorem c8_absent_page_yields_no_work (rel : String → String → String)
    (env : SiteEnv) (pageURL : String) (acc : List String)
    (hmiss : cacheHit env pageURL = false)
    (hbad : env.fetchOk pageURL = false) :
    (readSite env pageURL).result = ReadResult.absent ∧
    scrapeCategory rel env pageURL acc = some (acc, none) := by
  have hres : (readSite env pageURL).result = ReadResult.absent := by
    unfold readSite
    rw [hmiss, hbad]
    simp
  refine ⟨hres, ?_⟩
  unfold scrapeCategory
  rw [hres]

/-- C8 witness: concrete absent listing page leaves the accumulator
unchanged and yields no next-page URL. -/
theorem c8_absent_page_yields_no_work_witness :
    scrapeCategory relW envC8 "https://sts.example/cat" ["existing"] =
      some (["existing"], none) :=
  (c8_absent_page_yields_no_work relW envC8 "https://sts.example/cat"
    ["existing"] rfl rfl).2

/-! ## First-seen deduplication lemmas and claim C6 -/

theorem mem_dedupFirstAux {x : String} :
    ∀ (l seen : List String), x ∈ l → x ∉ seen → x ∈ dedupFirstAux seen l
  | [], _, hx, _ => absurd hx (List.not_mem_nil x)
  | a :: rest, seen, hx, hs => by
    rw [dedupFirstAux]
    rcases List.mem_cons.mp hx with rfl | hr
    · rw [if_neg hs]
      exact List.mem_cons_self x _
    · by_cases ha : a ∈ seen
      · rw [if_pos ha]
        exact mem_dedupFirstAux rest seen hr hs
      · rw [if_neg ha]
        by_cases hxa : x = a
        · subst hxa
          exact List.mem_cons_self x _
        · refine List.mem_cons_of_mem a (mem_dedupFirstAux rest (a :: seen) hr ?_)
          intro hc
          rcases List.mem_cons.mp hc with h1 | h1
          · exact hxa h1
          · exact hs h1

theorem dedupFirstAux_not_mem_seen {x : String} :
    ∀ (l seen : List String), x ∈ dedupFirstAux seen l → x ∉ seen
  | [], _, hx => absurd hx (List.not_mem_nil x)
  | a :: rest, seen, hx => by
    rw [dedupFirstAux] at hx
    split at hx
    case isTrue ha => exact dedupFirstAux_not_mem_seen rest seen hx
    case isFalse ha =>
      rcases List.mem_cons.mp hx with rfl | hr
      · exact ha
      · intro hs
        exact dedupFirstAux_not_mem_seen rest (a :: seen) hr
          (List.mem_cons_of_mem a hs)

theorem nodup_dedupFirstAux :
    ∀ (l seen : List String), (dedupFirstAux seen l).Nodup
  | [], _ => List.nodup_nil
  | a :: rest, seen => by
    rw [dedupFirstAux]
    split
    case isTrue ha => exact nodup_dedupFirstAux rest seen
    case isFalse ha =>
      rw [List.nodup_cons]
      refine ⟨?_, nodup_dedupFirstAux rest (a :: seen)⟩
      intro hmem
      exact dedupFirstAux_not_mem_seen rest (a :: seen) hmem
        (List.mem_cons_self a seen)

theorem foldl_pushNew :
    ∀ (l acc seen : List String), (∀ x, x ∈ acc ↔ x ∈ seen) →
      l.foldl pushNew acc = acc ++ dedupFirstAux seen l
  | [], acc, seen, _ => by simp [dedupFirstAux]
  | u :: rest, acc, seen, h => by
    rw [List.foldl_cons, dedupFirstAux]
    by_cases hu : u ∈ seen
    · rw [show pushNew acc u = acc from if_pos ((h u).mpr hu), if_pos hu]
      exact foldl_pushNew rest acc seen h
    · rw [show pushNew acc u = acc ++ [u] from
        if_neg (fun hc => hu ((h u).mp hc)), if_neg hu]
      rw [foldl_pushNew rest (acc ++ [u]) (u :: seen) ?_]
      · simp
      · intro x
        rw [List.mem_append, List.mem_cons, h x]
        simp only [List.mem_cons, List.not_mem_nil]
        tauto

theorem foldl_addResultURLs (rel : String → String → String) :
    ∀ (pages : List (String × List String)) (acc : List String),
      pages.foldl (fun acc p => addResultURLs rel p.1 p.2 acc) acc =
        (pages.flatMap (fun p => p.2.map (fun h => rel h p.1))).foldl
          pushNew acc
  | [], _ => rfl
  | p :: rest, acc => by
    rw [List.foldl_cons, List.flatMap_cons, List.foldl_append]
    exact foldl_addResultURLs rel rest (addResultURLs rel p.1 p.2 acc)

/-- C6: over any sequence of pagination pages of one category (each a
listing-page URL together with its result-link hrefs, processed in
order), the accumulator built by the `scrapeCategory` result-link loop
equals the first-occurrence deduplication of the stream of resolved entry
URLs — so it has no duplicates and preserves first-seen insertion order,
and a URL already present is never appended again. -/
theorem c6_accumulator_nodup_first_seen (rel : String → String → String)
    (pages : List (String × List String)) :
    pages.foldl (fun acc p => addResultURLs rel p.1 p.2 acc) [] =
      dedupFirst (pages.flatMap (fun p => p.2.map (fun h => rel h p.1))) ∧
    (pages.foldl (fun acc p => addResultURLs rel p.1 p.2 acc) []).Nodup := by
  have heq : pages.foldl (fun acc p => addResultURLs rel p.1 p.2 acc) [] =
      dedupFirst (pages.flatMap (fun p => p.2.map (fun h => rel h p.1))) := by
    rw [foldl_addResultURLs rel pages [],
      foldl_pushNew _ [] [] (fun x => Iff.rfl), List.nil_append, dedupFirst]
  refine ⟨heq, ?_⟩
  rw [heq, dedupFirst]
  exact nodup_dedupFirstAux _ []

/-! ## Dataset merge lemmas and claims C4, C5 -/

theorem mem_dedupFirst {x : String} {l : List String} (h : x ∈ l) :
    x ∈ dedupFirst l :=
  mem_dedupFirstAux l [] h (List.not_mem_nil x)

/-- C4: merge monotonicity — whenever one `scrapePage` step turns the
dataset `d` into `d'`, every id's stored tag set only grows: the merged
tag set is the first-seen deduplication of the tagified new tags followed
by the prior record's tags, and records of other ids are untouched.
Chained over the merges of a run, the tag set after merge `k+1` is a
superset of the tag set after merge `k`. -/
theorem c4_merge_tags_monotone (rel : String → String → String)
    (env : SiteEnv) (argvUrl : String) (categories : String → String)
    (category : String) (d d' : SearchData) (entryURL k : String)
    (r r' : EntryRecord)
    (hstep : scrapePage rel env argvUrl categories category d entryURL = some d')
    (hold : d k = some r) (hnew : d' k = some r') :
    ∀ t ∈ r.tags, t ∈ r'.tags := by
  intro t ht
  unfold scrapePage at hstep
  split at hstep
  case h_2 => exact absurd hstep (by simp)
  case h_1 page heq =>
    split at hstep
    case h_1 => exact absurd hstep (by simp)
    case h_2 variantPages heq2 =>
      dsimp only at hstep
      split at hstep
      case isTrue hempty =>
        injection hstep with hd
        subst hd
        rw [hold] at hnew
        injection hnew with hr
        subst hr
        exact ht
      case isFalse hempty =>
        injection hstep with hd
        subst hd
        have hnew' : (if k = extractId entryURL then
            some {
              title := page.title
              link := rel page.canonicalHref entryURL
              nav := [("SpreadTheSign", argvUrl),
                (category, categories category),
                (page.title, rel page.canonicalHref entryURL)]
              tags := dedupFirst
                ((["spread-the-sign", page.kind, category].map tagify) ++
                  (match d (extractId entryURL) with
                    | some r => r.tags
                    | none => []))
              body := page.body
              media := mediaOf rel entryURL page.videoSrcs ++
                variantPages.flatMap (fun vp => mediaOf rel entryURL vp.videoSrcs)
              provider := ⟨"spread-the-sign", argvUrl, "documented"⟩ }
          else d k) = some r' := hnew
        by_cases hk : k = extractId entryURL
        · rw [if_pos hk, ← hk, hold] at hnew'
          injection hnew' with hr
          subst hr
          exact mem_dedupFirst (List.mem_append_right _ ht)
        · rw [if_neg hk, hold] at hnew'
          injection hnew' with hr
          subst hr
          exact ht

/-- C4 witness: merging the concrete extraction of `urlC4` into a dataset
whose record "42" carries the tag "x" keeps "x" in the merged record. -/
theorem c4_merge_tags_monotone_witness : "x" ∈ recC4'.tags :=
  c4_merge_tags_monotone relW envC4 "https://sts.example"
    (fun _ => "catURL") "animals" d0C4 outC4 urlC4 "42" recC4 recC4'
    rfl rfl rfl "x" (by decide)

theorem scrapePage_media_nonempty (rel : String → String → String)
    (env : SiteEnv) (argvUrl : String) (categories : String → String)
    (category : String) (d d' : SearchData) (entryURL : String)
    (hstep : scrapePage rel env argvUrl categories category d entryURL = some d')
    (hinv : ∀ i r, d i = some r → r.media ≠ []) :
    ∀ i r, d' i = some r → r.media ≠ [] := by
  intro i r hi
  unfold scrapePage at hstep
  split at hstep
  case h_2 => exact absurd hstep (by simp)
  case h_1 page heq =>
    split at hstep
    case h_1 => exact absurd hstep (by simp)
    case h_2 variantPages heq2 =>
      dsimp only at hstep
      split at hstep
      case isTrue hempty =>
        injection hstep with hd
        subst hd
        exact hinv i r hi
      case isFalse hempty =>
        injection hstep with hd
        subst hd
        have hi' : (if i = extractId entryURL then
            some {
              title := page.title
              link := rel page.canonicalHref entryURL
              nav := [("SpreadTheSign", argvUrl),
                (category, categories category),
                (page.title, rel page.canonicalHref entryURL)]
              tags := dedupFirst
                ((["spread-the-sign", page.kind, category].map tagify) ++
                  (match d (extractId entryURL) with
                    | some r => r.tags
                    | none => []))
              body := page.body
              media := mediaOf rel entryURL page.videoSrcs ++
                variantPages.flatMap (fun vp => mediaOf rel entryURL vp.videoSrcs)
              provider := ⟨"spread-the-sign", argvUrl, "documented"⟩ }
          else d i) = some r := hi
        by_cases hk : i = extractId entryURL
        · rw [if_pos hk] at hi'
          injection hi' with hr
          subst hr
          intro hnil
          apply hempty
          rw [show (mediaOf rel entryURL page.videoSrcs ++
            variantPages.flatMap
              (fun vp => mediaOf rel entryURL vp.videoSrcs)) = [] from hnil]
          rfl
        · rw [if_neg hk] at hi'
          exact hinv i r hi'

theorem scrapePhase_media_nonempty (rel : String → String → String)
    (env : SiteEnv) (argvUrl : String) (categories : String → String) :
    ∀ (tasks : List (String × String)) (d : SearchData),
      (∀ i r, d i = some r → r.media ≠ []) →
      ∀ i r, scrapePhase rel env argvUrl categories tasks d i = some r →
        r.media ≠ []
  | [], _, hinv, i, r, h => hinv i r h
  | tk :: rest, d, hinv, i, r, h => by
    rw [scrapePhase, List.foldl_cons] at h
    cases hs : scrapePage rel env argvUrl categories tk.2 d tk.1 with
    | some d2 =>
      rw [hs] at h
      exact scrapePhase_media_nonempty rel env argvUrl categories rest d2
        (scrapePage_media_nonempty rel env argvUrl categories tk.2 d d2 tk.1
          hs hinv) i r h
    | none =>
      rw [hs] at h
      exact scrapePhase_media_nonempty rel env argvUrl categories rest d hinv i r h

/-- C5: starting from the empty dataset, after any sequence of
`scrapePage` tasks (the extraction phase of `run`, with failed tasks
isolated), every record present in the final dataset has a non-empty
media sequence — `scrapePage` only creates or updates a record when the
combined media of the primary page and all variant pages is non-empty,
so entries with empty combined media never appear. -/
theorem c5_empty_media_never_stored (rel : String → String → String)
    (env : SiteEnv) (argvUrl : String) (categories : String → String)
    (tasks : List (String × String)) (i : String) (r : EntryRecord)
    (h : scrapePhase rel env argvUrl categories tasks (fun _ => none) i = some r) :
    r.media ≠ [] :=
  scrapePhase_media_nonempty rel env argvUrl categories tasks (fun _ => none)
    (fun _ _ hc => Option.noConfusion hc) i r h

/-- C5 witness: the concrete record stored by the witness phase has
media. -/
theorem c5_empty_media_never_stored_witness : recC5.media ≠ [] :=
  c5_empty_media_never_stored relW envC4 "https://sts.example"
    (fun _ => "catURL") [(urlC4, "animals")] "42" recC5 rfl

/-! ## Claim C9: variant media resolve against the entry URL -/

/-- C9: in a successful `scrapePage`, the stored record's media sequence
is exactly the primary page's video srcs followed by every variant page's
video srcs, each resolved by `rel` against `entryURL` — the primary entry
page URL — and not against the variant page's own URL
(src/index.js lines 94-107 pass `entryURL` as the base in both maps). -/
theorem c9_variant_media_resolved_against_entry (rel : String → String → String)
    (env : SiteEnv) (argvUrl : String) (categories : String → String)
    (category : String) (d d' : SearchData) (entryURL : String) (page : Page)
    (variantPages : List Page) (r : EntryRecord)
    (hpage : (readSite env entryURL).result = ReadResult.doc page)
    (hvars : fetchVariants rel env entryURL page.variantHrefs = some variantPages)
    (hstep : scrapePage rel env argvUrl categories category d entryURL = some d')
    (hrec : d' (extractId entryURL) = some r)
    (hne : page.videoSrcs ++ variantPages.flatMap Page.videoSrcs ≠ []) :
    r.media = (page.videoSrcs ++ variantPages.flatMap Page.videoSrcs).map
      (fun src => { method := "fetch", url := rel src entryURL : MediaEntry }) := by
  have hmedia : mediaOf rel entryURL page.videoSrcs ++
      variantPages.flatMap (fun vp => mediaOf rel entryURL vp.videoSrcs) =
      (page.videoSrcs ++ variantPages.flatMap Page.videoSrcs).map
        (fun src => { method := "fetch", url := rel src entryURL : MediaEntry }) := by
    rw [List.map_append, List.map_flatMap]
    rfl
  unfold scrapePage at hstep
  split at hstep
  case h_2 hne2 => rw [hpage] at hne2; exact absurd rfl (hne2 page)
  case h_1 page2 heq =>
    rw [hpage] at heq
    injection heq with hpg
    subst hpg
    split at hstep
    case h_1 heq2 => rw [hvars] at heq2; exact absurd heq2 (by simp)
    case h_2 variantPages2 heq2 =>
      rw [hvars] at heq2
      injection heq2 with hvp
      subst hvp
      dsimp only at hstep
      split at hstep
      case isTrue hempty =>
        exfalso
        rw [hmedia] at hempty
        rcases List.map_eq_nil_iff.mp (List.isEmpty_iff.mp hempty) with hnil
        exact hne hnil
      case isFalse hempty =>
        injection hstep with hd
        subst hd
        have hrec' : (if extractId entryURL = extractId entryURL then
            some {
              title := page.title
              link := rel page.canonicalHref entryURL
              nav := [("SpreadTheSign", argvUrl),
                (category, categories category),
                (page.title, rel page.canonicalHref entryURL)]
              tags := dedupFirst
                ((["spread-the-sign", page.kind, category].map tagify) ++
                  (match d (extractId entryURL) with
                    | some r => r.tags
                    | none => []))
              body := page.body
              media := mediaOf rel entryURL page.videoSrcs ++
                variantPages.flatMap (fun vp => mediaOf rel entryURL vp.videoSrcs)
              provider := ⟨"spread-the-sign", argvUrl, "documented"⟩ }
          else d (extractId entryURL)) = some r := hrec
        rw [if_pos rfl] at hrec'
        injection hrec' with hr
        subst hr
        exact hmedia


/-- C9 witness: the concrete variant page's relative src "b.mp4" ends up
resolved against the entry URL (the witness resolver records its base, so
the output shows the entry page URL as the base). -/
theorem c9_variant_media_resolved_against_entry_witness :
    recC9.media = (pageC9main.videoSrcs ++
        [pageC9var].flatMap Page.videoSrcs).map
      (fun src => { method := "fetch", url := relW src urlC9 : MediaEntry }) :=
  c9_variant_media_resolved_against_entry relW envC9 "https://sts.example"
    (fun _ => "catURL") "animals" (fun _ => none) outC9 urlC9 pageC9main
    [pageC9var] recC9 rfl rfl rfl rfl (by decide)

/-! ## Claim C10: entry URLs with no numeric segment -/

theorem extractId_undefined {u : String}
    (h : ∀ seg ∈ splitSlash u, ¬ numericSeg seg = true) :
    extractId u = "undefined" := by
  unfold extractId
  rw [List.find?_eq_none.mpr h]
  rfl

theorem mediaOf_isEmpty_false {rel : String → String → String} {base : String}
    {srcs : List String} (h : srcs ≠ []) :
    (mediaOf rel base srcs).isEmpty = false := by
  cases srcs with
  | nil => exact absurd rfl h
  | cons a as => rfl

theorem scrapePage_stores_no_variants (rel : String → String → String)
    (env : SiteEnv) (argvUrl : String) (categories : String → String)
    (category : String) (d : SearchData) (u : String) (page : Page)
    (hp : (readSite env u).result = ReadResult.doc page)
    (hv : page.variantHrefs = []) (hm : page.videoSrcs ≠ []) :
    ∃ d1, scrapePage rel env argvUrl categories category d u = some d1 ∧
      (∃ r1, d1 (extractId u) = some r1 ∧ r1.title = page.title ∧
        r1.media = mediaOf rel u page.videoSrcs) ∧
      ∀ k, k ≠ extractId u → d1 k = d k := by
  have hfv : fetchVariants rel env u ([] : List String) = some [] := rfl
  have hni : ¬((mediaOf rel u page.videoSrcs ++
      (([] : List Page).flatMap (fun vp => mediaOf rel u vp.videoSrcs))).isEmpty
        = true) := by
    rw [List.flatMap_nil, List.append_nil, mediaOf_isEmpty_false hm]
    simp
  have heq : scrapePage rel env argvUrl categories category d u = some (fun k =>
      if k = extractId u then
        some {
          title := page.title
          link := rel page.canonicalHref u
          nav := [("SpreadTheSign", argvUrl), (category, categories category),
            (page.title, rel page.canonicalHref u)]
          tags := dedupFirst
            ((["spread-the-sign", page.kind, category].map tagify) ++
              (match d (extractId u) with
                | some r => r.tags
                | none => []))
          body := page.body
          media := mediaOf rel u page.videoSrcs ++
            (([] : List Page).flatMap (fun vp => mediaOf rel u vp.videoSrcs))
          provider := ⟨"spread-the-sign", argvUrl, "documented"⟩ }
      else d k) := by
    unfold scrapePage
    rw [hp]
    dsimp only
    rw [hv, hfv]
    dsimp only
    rw [if_neg hni]
  refine ⟨_, heq, ⟨{
      title := page.title
      link := rel page.canonicalHref u
      nav := [("SpreadTheSign", argvUrl), (category, categories category),
        (page.title, rel page.canonicalHref u)]
      tags := dedupFirst
        ((["spread-the-sign", page.kind, category].map tagify) ++
          (match d (extractId u) with
            | some r => r.tags
            | none => []))
      body := page.body
      media := mediaOf rel u page.videoSrcs ++
        (([] : List Page).flatMap (fun vp => mediaOf rel u vp.videoSrcs))
      provider := ⟨"spread-the-sign", argvUrl, "documented"⟩ }, ?_, rfl, ?_⟩, ?_⟩
  · show (if extractId u = extractId u then _ else d (extractId u)) = _
    rw [if_pos rfl]
  · show mediaOf rel u page.videoSrcs ++
      (([] : List Page).flatMap (fun vp => mediaOf rel u vp.videoSrcs)) =
      mediaOf rel u page.videoSrcs
    rw [List.flatMap_nil, List.append_nil]
  · intro k hk
    show (if k = extractId u then _ else d k) = d k
    rw [if_neg hk]

/-- C10: when an entry URL has no path segment consisting solely of
digits, `scrapePage` neither fails nor skips: `find` yields `undefined`,
`unslice` coerces it to the string "undefined", and (with non-empty
media) the record is stored under the key "undefined"; a second such
entry stores its record under the same single key, overwriting the
first record's non-tag fields (the stored title and media become those
of the second page). -/
theorem c10_undefined_id_key (rel : String → String → String)
    (env : SiteEnv) (argvUrl : String) (categories : String → String)
    (category : String) (d : SearchData) (u1 u2 : String) (p1 p2 : Page)
    (h1 : ∀ seg ∈ splitSlash u1, ¬ numericSeg seg = true)
    (h2 : ∀ seg ∈ splitSlash u2, ¬ numericSeg seg = true)
    (hp1 : (readSite env u1).result = ReadResult.doc p1)
    (hv1 : p1.variantHrefs = []) (hm1 : p1.videoSrcs ≠ [])
    (hp2 : (readSite env u2).result = ReadResult.doc p2)
    (hv2 : p2.variantHrefs = []) (hm2 : p2.videoSrcs ≠ []) :
    extractId u1 = "undefined" ∧ extractId u2 = "undefined" ∧
    ∃ d1, scrapePage rel env argvUrl categories category d u1 = some d1 ∧
      (∃ r1, d1 "undefined" = some r1 ∧ r1.title = p1.title) ∧
      ∃ d2, scrapePage rel env argvUrl categories category d1 u2 = some d2 ∧
        ∃ r2, d2 "undefined" = some r2 ∧ r2.title = p2.title ∧
          r2.media = mediaOf rel u2 p2.videoSrcs := by
  have e1 := extractId_undefined h1
  have e2 := extractId_undefined h2
  obtain ⟨d1, hd1, ⟨r1, hr1, ht1, hmed1⟩, hother1⟩ :=
    scrapePage_stores_no_variants rel env argvUrl categories category d u1 p1
      hp1 hv1 hm1
  obtain ⟨d2, hd2, ⟨r2, hr2, ht2, hmed2⟩, hother2⟩ :=
    scrapePage_stores_no_variants rel env argvUrl categories category d1 u2 p2
      hp2 hv2 hm2
  rw [e1] at hr1
  rw [e2] at hr2
  exact ⟨e1, e2, d1, hd1, ⟨r1, hr1, ht1⟩, d2, hd2, r2, hr2, ht2, hmed2⟩

/-- C10 witness: the concrete URL `urlC10a` has no numeric path segment
and its id extraction yields "undefined". -/
theorem c10_undefined_id_key_witness : extractId urlC10a = "undefined" :=
  (c10_undefined_id_key relW envC10 "https://sts.example" (fun _ => "catURL")
    "animals" (fun _ => none) urlC10a urlC10b pageC10a pageC10b
    (by decide) (by decide) rfl rfl (by decide) rfl rfl (by decide)).1
